import Mathlib

/-!
Shallow embedding of src/trackingService.ts (client-side telemetry collector:
event batching/flush engine plus presence heartbeat subsystem).

The source runs on a single-threaded cooperative event loop.  We model it as a
pure state machine: module-level mutable variables become fields of explicit
state records, `setTimeout`/`setInterval` handles become lists of live timers
tagged with numeric ids, and every sink (remote store) call is appended to a
log instead of performed.  An `async` function's synchronous prefix (the code
up to its first `await`) executes atomically in the source; where a claim
depends on that split (the queue swap in `flushEvents`), the embedding provides
the phases as separate functions (`flushCapture` for the synchronous swap,
`groupCalls` for the later sends).

`isAnalyticsEnabled` (the global enable flag) and the nullability of
`analyticsClient` are imported from analyticsClient.ts, outside this file's
source; they are passed as boolean parameters `enabled` and `client`.
Event payloads are opaque in the source (`data: any`); they are a type
parameter `α` here.
-/

namespace TrackingService

/-- FLUSH_INTERVAL = 5000: flush every 5 seconds (trackingService.ts line 76). -/
def FLUSH_INTERVAL : Nat := 5000

/-- MAX_QUEUE_SIZE = 10: flush when the queue reaches 10 events (line 77). -/
def MAX_QUEUE_SIZE : Nat := 10

/-- PING_INTERVAL = 20000: ping every 20 seconds (line 186). -/
def PING_INTERVAL : Nat := 20000

/-- ACTIVE_THRESHOLD = 60000: active if pinged within 60 seconds (line 187). -/
def ACTIVE_THRESHOLD : Nat := 60000

/-- MIN_ACTIVITY_GAP = 10000: no ping if idle for 10+ seconds (line 188). -/
def MIN_ACTIVITY_GAP : Nat := 10000

/-- A queued event `{ table, data }` as pushed by `queueEvent` (line 118). -/
structure QueuedEvent (α : Type) where
  table : String
  data : α
deriving DecidableEq

/-- One grouped insert issued to the sink by `flushEvents`
(`analyticsClient.from(table).insert(rows)`, lines 92-94 and 101-103). -/
structure InsertCall (α : Type) where
  table : String
  rows : List α
deriving DecidableEq

/-- The batching subsystem's mutable module state (lines 74-75) together with
the host timer table and a log of sink calls.  `pendingTimers` holds the live
`setTimeout` handles as (id, fire time) pairs; `flushTimeout` is the module
variable storing the most recently created handle; `nextTimerId` generates
fresh handle ids. -/
structure BatcherState (α : Type) where
  eventQueue : List (QueuedEvent α)
  pendingTimers : List (Nat × Nat)
  flushTimeout : Option Nat
  nextTimerId : Nat
  sink : List (InsertCall α)
deriving DecidableEq

/-- Initial state: empty queue, no timer (lines 74-75). -/
def initBatcher {α : Type} : BatcherState α :=
  { eventQueue := [], pendingTimers := [], flushTimeout := none,
    nextTimerId := 0, sink := [] }

/-- The send phase of `flushEvents` (lines 85-107): filter the captured batch
into business interactions and visit logs and issue one grouped insert per
non-empty group, provided `analyticsClient` is non-null. -/
def groupCalls {α : Type} (client : Bool) (eventsToSend : List (QueuedEvent α)) :
    List (InsertCall α) :=
  let businessInteractions :=
    eventsToSend.filter (fun e => e.table == "business_interactions")
  let visitLogs := eventsToSend.filter (fun e => e.table == "visit_logs")
  (if businessInteractions.length != 0 && client then
    [{ table := "business_interactions", rows := businessInteractions.map (·.data) }]
   else []) ++
  (if visitLogs.length != 0 && client then
    [{ table := "visit_logs", rows := visitLogs.map (·.data) }]
   else [])

/-- The synchronous prefix of `flushEvents` (lines 79-83): return unchanged if
the queue is empty or analytics is disabled; otherwise capture the queue
(`eventsToSend = [...eventQueue]`) and reset it (`eventQueue = []`) before any
`await`.  Returns the new state and the captured batch. -/
def flushCapture {α : Type} (enabled : Bool) (s : BatcherState α) :
    BatcherState α × List (QueuedEvent α) :=
  if s.eventQueue.length == 0 || !enabled then (s, [])
  else ({ s with eventQueue := [] }, s.eventQueue)

/-- `flushEvents` (lines 79-108) run to completion: the capture phase followed
by the grouped sends, whose calls are appended to the sink log. -/
def flushEvents {α : Type} (enabled client : Bool) (s : BatcherState α) :
    BatcherState α :=
  let c := flushCapture enabled s
  { c.1 with sink := c.1.sink ++ groupCalls client c.2 }

/-- `scheduleFlush` (lines 110-113): `clearTimeout` the stored handle (if any),
then `setTimeout(flushEvents, FLUSH_INTERVAL)` and store the new handle. -/
def scheduleFlush {α : Type} (now : Nat) (s : BatcherState α) : BatcherState α :=
  let cleared := match s.flushTimeout with
    | some id => s.pendingTimers.filter (fun p => p.1 != id)
    | none => s.pendingTimers
  { s with pendingTimers := cleared ++ [(s.nextTimerId, now + FLUSH_INTERVAL)],
           flushTimeout := some s.nextTimerId,
           nextTimerId := s.nextTimerId + 1 }

/-- `queueEvent` (lines 115-126): skip if analytics disabled; push the event;
flush immediately if the queue is full, otherwise (re)schedule the timer. -/
def queueEvent {α : Type} (enabled client : Bool) (now : Nat)
    (table : String) (data : α) (s : BatcherState α) : BatcherState α :=
  if !enabled then s
  else
    let s1 := { s with eventQueue := s.eventQueue ++ [⟨table, data⟩] }
    if MAX_QUEUE_SIZE ≤ s1.eventQueue.length then flushEvents enabled client s1
    else scheduleFlush now s1

/-- A pending flush timer fires: the host removes the handle from the live
table and runs `flushEvents` (the callback of line 112).  Firing a dead id
does nothing. -/
def fireFlushTimer {α : Type} (enabled client : Bool) (id : Nat)
    (s : BatcherState α) : BatcherState α :=
  if s.pendingTimers.any (fun p => p.1 == id) then
    flushEvents enabled client
      { s with pendingTimers := s.pendingTimers.filter (fun p => p.1 != id) }
  else s

/-- Operations that drive the batcher: an `enqueue` at a given time, or a
timer firing. -/
inductive BatcherOp (α : Type) where
  | enqueue (now : Nat) (table : String) (data : α)
  | fire (id : Nat)
deriving DecidableEq

/-- One step of the batcher event loop. -/
def batcherStep {α : Type} (enabled client : Bool) (s : BatcherState α) :
    BatcherOp α → BatcherState α
  | .enqueue now table data => queueEvent enabled client now table data s
  | .fire id => fireFlushTimer enabled client id s

/-- Run a sequence of batcher operations. -/
def batcherRun {α : Type} (enabled client : Bool) (ops : List (BatcherOp α))
    (s : BatcherState α) : BatcherState α :=
  ops.foldl (batcherStep enabled client) s

/-- The fire times of the live flush timers. -/
def flushFireTimes {α : Type} (s : BatcherState α) : List Nat :=
  s.pendingTimers.map (·.2)

/-- Timer discipline invariant: at most one flush timer is live, and every
live one is the stored handle. -/
def timerInv {α : Type} (s : BatcherState α) : Prop :=
  s.pendingTimers.length ≤ 1 ∧ ∀ p ∈ s.pendingTimers, s.flushTimeout = some p.1

instance {α : Type} (s : BatcherState α) : Decidable (timerInv s) := by
  unfold timerInv; infer_instance

/-! ## Identity store (localStorage-backed, lines 44-68) -/

/-- The durable key-value store: the values under `jawala_device_id` and
`jawala_user_name`.  `freshCtr` drives generation of fresh device ids
(standing in for the `Date.now()`/`Math.random()` suffix of line 51). -/
structure Storage where
  deviceId : Option String
  userName : Option String
  freshCtr : Nat
deriving DecidableEq

/-- `getDeviceId` (lines 47-56): return the stored id, creating and persisting
a fresh one on first use. -/
def getDeviceId (s : Storage) : String × Storage :=
  match s.deviceId with
  | some d => (d, s)
  | none =>
    let d := "device_" ++ toString s.freshCtr
    (d, { s with deviceId := some d, freshCtr := s.freshCtr + 1 })

/-- `getUserName` (lines 58-60). -/
def getUserName (s : Storage) : Option String :=
  s.userName

/-- `setUserName` (lines 62-64). -/
def setUserName (name : String) (s : Storage) : Storage :=
  { s with userName := some name }

/-- `hasUserName` (lines 66-68). -/
def hasUserName (s : Storage) : Bool :=
  (getUserName s).isSome

/-! ## Presence heartbeat (lines 185-266) -/

/-- The record upserted into `live_users` (lines 255-259) and sent by the
unload beacon (lines 230-235). -/
structure PresenceRecord where
  device_id : String
  user_name : Option String
  is_active : Bool
  last_ping : Nat
deriving DecidableEq

/-- One `upsert` issued to the sink (lines 253-262): table, record, and the
conflict key. -/
structure UpsertCall where
  table : String
  record : PresenceRecord
  onConflict : String
deriving DecidableEq

/-- `sendPing` (lines 241-266): skip unless the tab is visible, the user was
active within `MIN_ACTIVITY_GAP`, and analytics is enabled; then, if the
client is non-null, upsert a presence record keyed by `device_id` with
`is_active = true` and `last_ping = now`.  Returns the upsert performed, if
any.  (`Date.now() - lastActivity` agrees with truncated `Nat` subtraction
for the comparison `> MIN_ACTIVITY_GAP`: when `lastActivity > now` both the
negative JS difference and the truncated 0 fail the comparison.) -/
def sendPing (enabled client tabVisible : Bool) (now lastActivity : Nat)
    (deviceId : String) (userName : Option String) : Option UpsertCall :=
  if !tabVisible || decide (MIN_ACTIVITY_GAP < now - lastActivity) || !enabled then
    none
  else if !client then none
  else
    some { table := "live_users",
           record := { device_id := deviceId, user_name := userName,
                       is_active := true, last_ping := now },
           onConflict := "device_id" }

/-- A live `setInterval` handle created by `startLiveTracking` (lines
219-221), carrying the `deviceId` and `userName` constants captured by the
interval's closure at the time of the call. -/
structure PingTimer where
  id : Nat
  deviceId : String
  userName : Option String
deriving DecidableEq

/-- The heartbeat subsystem's mutable state: the live interval timers, the
module variable `pingInterval` (line 185) holding the stored handle, the id
generator, the registered `beforeunload` listeners (line 224) with their
captured (deviceId, userName) pairs, the log of `live_users` upserts, and the
log of beacon payloads sent at unload (lines 228-236). -/
structure LiveState where
  pingTimers : List PingTimer
  pingInterval : Option Nat
  nextId : Nat
  unloadListeners : List (String × Option String)
  pingSink : List UpsertCall
  beacons : List PresenceRecord
deriving DecidableEq

/-- Initial heartbeat state (line 185: `pingInterval = null`). -/
def initLive : LiveState :=
  { pingTimers := [], pingInterval := none, nextId := 0,
    unloadListeners := [], pingSink := [], beacons := [] }

/-- The state visible to `startLiveTracking` and `trackUserVisit`: identity
storage, the batcher, the heartbeat state, and the log of `user_tracking`
writes.  `α` is the opaque event payload type of the batcher. -/
structure AppState (α : Type) where
  storage : Storage
  batcher : BatcherState α
  live : LiveState
  userSink : List (InsertCall String)
deriving DecidableEq

/-- `startLiveTracking` (lines 207-239): skip if analytics disabled; read
`deviceId` and `userName` once; send an initial ping; `clearInterval` the
stored handle and `setInterval` a fresh one whose closure captures the two
constants; register a `beforeunload` listener capturing the same constants. -/
def startLiveTracking {α : Type} (enabled client tabVisible : Bool)
    (now lastActivity : Nat) (s : AppState α) : AppState α :=
  if !enabled then s
  else
    let d := getDeviceId s.storage
    let deviceId := d.1
    let userName := getUserName d.2
    let live0 := s.live
    let live1 := match sendPing enabled client tabVisible now lastActivity
        deviceId userName with
      | some c => { live0 with pingSink := live0.pingSink ++ [c] }
      | none => live0
    let cleared := match live1.pingInterval with
      | some id => live1.pingTimers.filter (fun t => t.id != id)
      | none => live1.pingTimers
    let live2 :=
      { live1 with
        pingTimers := cleared ++ [⟨live1.nextId, deviceId, userName⟩],
        pingInterval := some live1.nextId,
        nextId := live1.nextId + 1,
        unloadListeners := live1.unloadListeners ++ [(deviceId, userName)] }
    { s with storage := d.2, live := live2 }

/-- A live ping interval fires (the callback of lines 219-221): run `sendPing`
with the captured `deviceId`/`userName` and the current activity signal.
Firing a dead id does nothing. -/
def pingTick (enabled client tabVisible : Bool) (now lastActivity : Nat)
    (id : Nat) (l : LiveState) : LiveState :=
  match l.pingTimers.find? (fun t => t.id == id) with
  | none => l
  | some t =>
    match sendPing enabled client tabVisible now lastActivity
        t.deviceId t.userName with
    | some c => { l with pingSink := l.pingSink ++ [c] }
    | none => l

/-- One registered `beforeunload` listener runs (lines 224-238):
`clearInterval` the currently stored handle, then, if analytics is enabled and
the client non-null, send a beacon with the captured identity and
`is_active = false`, `last_ping = now`. -/
def runUnloadListener (enabled client : Bool) (now : Nat) (l : LiveState)
    (cap : String × Option String) : LiveState :=
  let cleared := match l.pingInterval with
    | some id => l.pingTimers.filter (fun t => t.id != id)
    | none => l.pingTimers
  let l1 := { l with pingTimers := cleared }
  if enabled && client then
    { l1 with beacons := l1.beacons ++
        [{ device_id := cap.1, user_name := cap.2,
           is_active := false, last_ping := now }] }
  else l1

/-- Page unload: every registered `beforeunload` listener runs, in
registration order. -/
def fireUnload {α : Type} (enabled client : Bool) (now : Nat) (s : AppState α) :
    AppState α :=
  let live1 := s.live.unloadListeners.foldl (runUnloadListener enabled client now) s.live
  { s with live := live1 }

/-- Operations driving the heartbeat subsystem. -/
inductive LiveOp where
  | start (client tabVisible : Bool) (now lastActivity : Nat)
  | tick (client tabVisible : Bool) (now lastActivity : Nat) (id : Nat)
  | setName (n : String)
  | unload (client : Bool) (now : Nat)
deriving DecidableEq

/-- One step of the heartbeat event loop. -/
def liveStep {α : Type} (enabled : Bool) (s : AppState α) : LiveOp → AppState α
  | .start client tabVisible now lastActivity =>
    startLiveTracking enabled client tabVisible now lastActivity s
  | .tick client tabVisible now lastActivity id =>
    { s with live := pingTick enabled client tabVisible now lastActivity id s.live }
  | .setName n => { s with storage := setUserName n s.storage }
  | .unload client now => fireUnload enabled client now s

/-- Run a sequence of heartbeat operations. -/
def liveRun {α : Type} (enabled : Bool) (ops : List LiveOp) (s : AppState α) :
    AppState α :=
  ops.foldl (liveStep enabled) s

/-- Initial application state. -/
def initApp {α : Type} (st : Storage) : AppState α :=
  { storage := st, batcher := initBatcher, live := initLive, userSink := [] }

/-- Heartbeat timer discipline: at most one ping interval is live, and every
live one is the stored handle. -/
def pingTimersOk (l : LiveState) : Prop :=
  l.pingTimers.length ≤ 1 ∧ ∀ t ∈ l.pingTimers, l.pingInterval = some t.id

instance (l : LiveState) : Decidable (pingTimersOk l) := by
  unfold pingTimersOk; infer_instance

/-- Heartbeat timer discipline invariant on the application state. -/
def pingInv {α : Type} (s : AppState α) : Prop :=
  pingTimersOk s.live

instance {α : Type} (s : AppState α) : Decidable (pingInv s) := by
  unfold pingInv; infer_instance

/-! ## trackUserVisit (lines 351-420) -/

/-- The row of `user_tracking` read back by the existing-user fetch (lines
365-369); only `total_visits` is consumed by the update branch. -/
structure UserRow where
  total_visits : Option Nat
deriving DecidableEq

/-- A write to the `user_tracking` table by `trackUserVisit`: the update of an
existing row (lines 377-384) or the insert of a new one (lines 391-398). -/
inductive UserTrackingCall where
  | update (user_name : String) (last_visit_at : Nat) (total_visits : Nat)
      (device_id : String)
  | insert (user_name device_id user_agent : String) (total_visits : Nat)
deriving DecidableEq

/-- The visit-log payload queued by `trackUserVisit` (lines 406-412). -/
structure VisitRow where
  device_id : String
  user_name : Option String
  page_path : String
  referrer : Option String
  visited_at : Nat
deriving DecidableEq

/-- The state touched by `trackUserVisit`: the app state plus the
`user_tracking` write log. -/
structure VisitApp where
  storage : Storage
  batcher : BatcherState VisitRow
  live : LiveState
  userCalls : List UserTrackingCall
deriving DecidableEq

/-- `trackUserVisit` (lines 351-420).  If analytics is disabled, it still
saves the name locally and returns.  Otherwise (inside
`safeAnalyticsOperation`, with a non-null client): fetch the existing user row
(`existingUser`, an input here since the sink's answer is external), update or
insert into `user_tracking`, queue a `visit_logs` event, save the name
locally, and start live tracking.  `tabVisible`/`lastActivity` feed the nested
`startLiveTracking`; `pagePath`/`referrer`/`userAgent` come from the host. -/
def trackUserVisit (enabled client tabVisible : Bool) (now lastActivity : Nat)
    (pagePath : String) (referrer : Option String) (userAgent : String)
    (existingUser : Option UserRow) (userName : String) (s : VisitApp) :
    VisitApp :=
  if !enabled then
    { s with storage := setUserName userName s.storage }
  else if !client then s
  else
    let d := getDeviceId s.storage
    let deviceId := d.1
    let call := match existingUser with
      | some u =>
        UserTrackingCall.update userName now ((u.total_visits.getD 0) + 1) deviceId
      | none => UserTrackingCall.insert userName deviceId userAgent 1
    let batcher1 := queueEvent enabled client now "visit_logs"
      { device_id := deviceId, user_name := some userName,
        page_path := pagePath, referrer := referrer, visited_at := now }
      s.batcher
    let st1 := setUserName userName d.2
    let app1 : AppState VisitRow :=
      { storage := st1, batcher := batcher1, live := s.live, userSink := [] }
    let app2 := startLiveTracking enabled client tabVisible now lastActivity app1
    { storage := app2.storage, batcher := app2.batcher, live := app2.live,
      userCalls := s.userCalls ++ [call] }

/-! ## Batcher lemmas -/

theorem groupCalls_nil {α : Type} (client : Bool) : groupCalls (α := α) client [] = [] := by
  simp [groupCalls]

theorem flushEvents_of_empty {α : Type} {enabled client : Bool} {s : BatcherState α}
    (h : s.eventQueue = []) : flushEvents enabled client s = s := by
  rcases s with ⟨q, pt, ft, ni, sk⟩
  simp only at h
  subst h
  simp [flushEvents, flushCapture, groupCalls]

theorem flushEvents_of_disabled {α : Type} {client : Bool} (s : BatcherState α) :
    flushEvents false client s = s := by
  simp [flushEvents, flushCapture, groupCalls]

theorem flushEvents_of_nonempty {α : Type} {client : Bool} {s : BatcherState α}
    (h : s.eventQueue ≠ []) :
    flushEvents true client s =
      { s with eventQueue := [], sink := s.sink ++ groupCalls client s.eventQueue } := by
  have hl : (s.eventQueue.length == 0) = false := by
    simp [List.length_eq_zero, h]
  simp [flushEvents, flushCapture, hl]

theorem flushEvents_pendingTimers {α : Type} (enabled client : Bool) (s : BatcherState α) :
    (flushEvents enabled client s).pendingTimers = s.pendingTimers := by
  unfold flushEvents flushCapture
  split <;> rfl

theorem flushEvents_flushTimeout {α : Type} (enabled client : Bool) (s : BatcherState α) :
    (flushEvents enabled client s).flushTimeout = s.flushTimeout := by
  unfold flushEvents flushCapture
  split <;> rfl

theorem flushEvents_nextTimerId {α : Type} (enabled client : Bool) (s : BatcherState α) :
    (flushEvents enabled client s).nextTimerId = s.nextTimerId := by
  unfold flushEvents flushCapture
  split <;> rfl

theorem flushEvents_queue_cases {α : Type} (enabled client : Bool) (s : BatcherState α) :
    flushEvents enabled client s = s ∨ (flushEvents enabled client s).eventQueue = [] := by
  by_cases h : (s.eventQueue.length == 0 || !enabled) = true
  · left
    rcases s with ⟨q, pt, ft, ni, sk⟩
    simp [flushEvents, flushCapture, h, groupCalls]
  · right
    simp [flushEvents, flushCapture, h]

theorem queueEvent_below {α : Type} (client : Bool) (now : Nat) (table : String) (data : α)
    (s : BatcherState α) (h : s.eventQueue.length + 1 < MAX_QUEUE_SIZE) :
    queueEvent true client now table data s =
      scheduleFlush now
        { s with eventQueue := s.eventQueue ++ [{ table := table, data := data }] } := by
  simp [queueEvent]
  intro hc
  exact absurd hc (by omega)

theorem queueEvent_trigger {α : Type} (client : Bool) (now : Nat) (table : String) (data : α)
    (s : BatcherState α) (h : MAX_QUEUE_SIZE ≤ s.eventQueue.length + 1) :
    queueEvent true client now table data s =
      flushEvents true client
        { s with eventQueue := s.eventQueue ++ [{ table := table, data := data }] } := by
  simp [queueEvent]
  intro hc
  exact absurd h (by omega)

theorem queueEvent_length_lt {α : Type} (enabled client : Bool) (now : Nat)
    (table : String) (data : α) (s : BatcherState α)
    (h : s.eventQueue.length < MAX_QUEUE_SIZE) :
    (queueEvent enabled client now table data s).eventQueue.length < MAX_QUEUE_SIZE := by
  cases enabled with
  | false => simpa [queueEvent] using h
  | true =>
    by_cases htr : MAX_QUEUE_SIZE ≤ s.eventQueue.length + 1
    · rw [queueEvent_trigger client now table data s htr]
      rw [flushEvents_of_nonempty (by simp)]
      simp [MAX_QUEUE_SIZE]
    · rw [queueEvent_below client now table data s (by omega)]
      simp only [scheduleFlush, List.length_append, List.length_singleton]
      omega

theorem fireFlushTimer_length_lt {α : Type} (enabled client : Bool) (id : Nat)
    (s : BatcherState α) (h : s.eventQueue.length < MAX_QUEUE_SIZE) :
    (fireFlushTimer enabled client id s).eventQueue.length < MAX_QUEUE_SIZE := by
  unfold fireFlushTimer
  split
  · rcases flushEvents_queue_cases enabled client
        { s with pendingTimers := s.pendingTimers.filter (fun p => p.1 != id) } with hc | hc
    · rw [hc]; exact h
    · rw [hc]; simp [MAX_QUEUE_SIZE]
  · exact h

theorem batcherStep_length_lt {α : Type} (enabled client : Bool) (s : BatcherState α)
    (op : BatcherOp α) (h : s.eventQueue.length < MAX_QUEUE_SIZE) :
    (batcherStep enabled client s op).eventQueue.length < MAX_QUEUE_SIZE := by
  cases op with
  | enqueue now table data => exact queueEvent_length_lt enabled client now table data s h
  | fire id => exact fireFlushTimer_length_lt enabled client id s h

theorem batcherRun_length_lt {α : Type} (enabled client : Bool) (ops : List (BatcherOp α))
    (s : BatcherState α) (h : s.eventQueue.length < MAX_QUEUE_SIZE) :
    (batcherRun enabled client ops s).eventQueue.length < MAX_QUEUE_SIZE := by
  induction ops generalizing s with
  | nil => exact h
  | cons op rest ih =>
    exact ih (batcherStep enabled client s op) (batcherStep_length_lt enabled client s op h)

/-! ## Timer-discipline lemmas -/

theorem scheduleFlush_cleared {α : Type} (now : Nat) {s : BatcherState α}
    (h : timerInv s) :
    (scheduleFlush now s).pendingTimers = [(s.nextTimerId, now + FLUSH_INTERVAL)] := by
  rcases h with ⟨-, hall⟩
  unfold scheduleFlush
  cases hft : s.flushTimeout with
  | none =>
    have : s.pendingTimers = [] := by
      cases hpt : s.pendingTimers with
      | nil => rfl
      | cons p rest =>
        have := hall p (by rw [hpt]; exact List.mem_cons_self p rest)
        rw [hft] at this
        cases this
    simp [this]
  | some id =>
    have : s.pendingTimers.filter (fun p => p.1 != id) = [] := by
      rw [List.filter_eq_nil_iff]
      intro p hp
      have := hall p hp
      rw [hft] at this
      have hid : p.1 = id := by injection this with h2; exact h2.symm
      simp [hid]
    simp [this]

theorem scheduleFlush_timerInv {α : Type} (now : Nat) {s : BatcherState α}
    (h : timerInv s) : timerInv (scheduleFlush now s) := by
  have hc := scheduleFlush_cleared now h
  constructor
  · rw [hc]; simp
  · intro p hp
    rw [hc] at hp
    simp only [List.mem_singleton] at hp
    subst hp
    rfl

theorem fireFlushTimer_timerInv {α : Type} (enabled client : Bool) (id : Nat)
    {s : BatcherState α} (h : timerInv s) : timerInv (fireFlushTimer enabled client id s) := by
  unfold fireFlushTimer
  split
  · constructor
    · rw [flushEvents_pendingTimers]
      exact le_trans (List.length_filter_le _ _) h.1
    · intro p hp
      rw [flushEvents_pendingTimers] at hp
      rw [flushEvents_flushTimeout]
      exact h.2 p (List.mem_of_mem_filter hp)
  · exact h

theorem queueEvent_timerInv {α : Type} (enabled client : Bool) (now : Nat)
    (table : String) (data : α) {s : BatcherState α} (h : timerInv s) :
    timerInv (queueEvent enabled client now table data s) := by
  cases enabled with
  | false => simpa [queueEvent] using h
  | true =>
    by_cases htr : MAX_QUEUE_SIZE ≤ s.eventQueue.length + 1
    · rw [queueEvent_trigger client now table data s htr]
      constructor
      · rw [flushEvents_pendingTimers]; exact h.1
      · intro p hp
        rw [flushEvents_pendingTimers] at hp
        rw [flushEvents_flushTimeout]
        exact h.2 p hp
    · rw [queueEvent_below client now table data s (by omega)]
      exact scheduleFlush_timerInv now h

theorem batcherRun_timerInv {α : Type} (enabled client : Bool) (ops : List (BatcherOp α))
    {s : BatcherState α} (h : timerInv s) : timerInv (batcherRun enabled client ops s) := by
  induction ops generalizing s with
  | nil => exact h
  | cons op rest ih =>
    refine ih ?_
    cases op with
    | enqueue now table data => exact queueEvent_timerInv enabled client now table data h
    | fire id => exact fireFlushTimer_timerInv enabled client id h

/-! ## Concrete runs used by witnesses and counterexamples -/

/-- Nine enqueues of visit-log events (payloads 0..8) at time 0 from the
initial state: the queue holds 9 events and one flush timer is pending at
fire time 5000. -/
def enq9 : BatcherState Nat :=
  batcherRun true true
    ((List.range 9).map (fun n => BatcherOp.enqueue 0 "visit_logs" n)) initBatcher

/-- Three enqueues at t = 0, 1000, 2000 (the burst of the debounce example). -/
def burstState : BatcherState Nat :=
  batcherRun true true
    [BatcherOp.enqueue 0 "visit_logs" 0, BatcherOp.enqueue 1000 "visit_logs" 1,
     BatcherOp.enqueue 2000 "visit_logs" 2] initBatcher

/-! ## Claim C1 -/

/-- C1: for every sequence of operations with the subsystem enabled, the
queue length observable between operations never exceeds MAX_QUEUE_SIZE
(part 1: in fact it stays strictly below it); and any enqueue that brings the
queue length to MAX_QUEUE_SIZE performs the flush swap within that same
enqueue step, so the queue is empty (and the grouped sink writes for the
batch have been issued) before the enqueue returns (part 2). -/
theorem C1_threshold_flush_bounds_queue :
    (∀ (α : Type) (client : Bool) (ops : List (BatcherOp α)),
      (batcherRun true client ops initBatcher).eventQueue.length ≤ MAX_QUEUE_SIZE) ∧
    (∀ (α : Type) (client : Bool) (now : Nat) (table : String) (data : α)
      (s : BatcherState α), MAX_QUEUE_SIZE ≤ s.eventQueue.length + 1 →
      (queueEvent true client now table data s).eventQueue = [] ∧
      (queueEvent true client now table data s).sink =
        s.sink ++ groupCalls client (s.eventQueue ++ [{ table := table, data := data }])) := by
  constructor
  · intro α client ops
    have h0 : (initBatcher (α := α)).eventQueue.length < MAX_QUEUE_SIZE := by
      simp [initBatcher, MAX_QUEUE_SIZE]
    exact le_of_lt (batcherRun_length_lt true client ops initBatcher h0)
  · intro α client now table data s h
    rw [queueEvent_trigger client now table data s h]
    rw [flushEvents_of_nonempty (by simp)]
    exact ⟨rfl, rfl⟩

/-- Witness for C1: from the concrete 9-event state, the 10th enqueue hits
the threshold and leaves the queue empty. -/
theorem C1_threshold_flush_bounds_queue_witness :
    MAX_QUEUE_SIZE ≤ enq9.eventQueue.length + 1 ∧
    (queueEvent true true 100 "visit_logs" 9 enq9).eventQueue = [] := by
  refine ⟨by decide, ?_⟩
  exact (C1_threshold_flush_bounds_queue.2 Nat true 100 "visit_logs" 9 enq9 (by decide)).1

/-! ## Claim C3 -/

/-- C3: for any enqueue that leaves the queue length (the length reached by
appending the event) below MAX_QUEUE_SIZE, no immediate flush occurs (the
sink log is unchanged and the event stays queued) and the flush timer is
rescheduled to fire FLUSH_INTERVAL after that enqueue, cancelling the
previously scheduled timer — afterwards exactly that one timer is pending
(part 1).  In the burst example (enqueues at t = 0, 1000, 2000) the pending
flush timer fires at 7000 = 2000 + FLUSH_INTERVAL, not at 5000, and nothing
has been flushed (part 2).  At most one flush timer is pending at any instant
of any run (part 3). -/
theorem C3_trailing_debounce :
    (∀ (α : Type) (client : Bool) (now : Nat) (table : String) (data : α)
      (s : BatcherState α), timerInv s → s.eventQueue.length + 1 < MAX_QUEUE_SIZE →
      (queueEvent true client now table data s).sink = s.sink ∧
      (queueEvent true client now table data s).eventQueue =
        s.eventQueue ++ [{ table := table, data := data }] ∧
      flushFireTimes (queueEvent true client now table data s) = [now + FLUSH_INTERVAL]) ∧
    (flushFireTimes burstState = [7000] ∧ 7000 = 2000 + FLUSH_INTERVAL ∧
      burstState.sink = []) ∧
    (∀ (α : Type) (enabled client : Bool) (ops : List (BatcherOp α)),
      (batcherRun enabled client ops initBatcher).pendingTimers.length ≤ 1) := by
  refine ⟨?_, ⟨by decide, by decide, by decide⟩, ?_⟩
  · intro α client now table data s hinv h
    rw [queueEvent_below client now table data s h]
    have hinv1 : timerInv { s with eventQueue := s.eventQueue ++ [{ table := table, data := data }] } := hinv
    refine ⟨rfl, rfl, ?_⟩
    unfold flushFireTimes
    rw [scheduleFlush_cleared now hinv1]
    rfl
  · intro α enabled client ops
    have h0 : timerInv (initBatcher (α := α)) := by
      constructor
      · simp [initBatcher]
      · intro p hp
        simp [initBatcher] at hp
    exact (batcherRun_timerInv enabled client ops h0).1

/-- Witness for C3: a single enqueue at time 42 from the initial state keeps
the sink empty and schedules the one flush timer for 42 + FLUSH_INTERVAL. -/
theorem C3_trailing_debounce_witness :
    (queueEvent true true 42 "visit_logs" (0 : Nat) initBatcher).sink = [] ∧
    flushFireTimes (queueEvent true true 42 "visit_logs" (0 : Nat) initBatcher) =
      [42 + FLUSH_INTERVAL] := by
  have h := C3_trailing_debounce.1 Nat true 42 "visit_logs" 0 initBatcher
    (by decide) (by decide)
  exact ⟨h.1, h.2.2⟩

/-! ## Claim C8 -/

/-- Counterexample to C8: in the source, `queueEvent` branches with
if/else (lines 121-125), so the size-triggering enqueue does NOT reschedule
the flush timer.  Concretely: after 9 enqueues at t = 0 the one pending
timer fires at 5000; the 10th enqueue at t = 100 runs the size-triggered
flush (queue emptied, batch sent) but the pending timer still fires at 5000,
not at 100 + FLUSH_INTERVAL = 5100, and no new timer handle is created. -/
theorem C8_counterexample :
    (queueEvent true true 100 "visit_logs" 9 enq9).eventQueue = [] ∧
    (queueEvent true true 100 "visit_logs" 9 enq9).sink ≠ [] ∧
    flushFireTimes (queueEvent true true 100 "visit_logs" 9 enq9) = [5000] ∧
    flushFireTimes (queueEvent true true 100 "visit_logs" 9 enq9) ≠
      [100 + FLUSH_INTERVAL] ∧
    (queueEvent true true 100 "visit_logs" 9 enq9).nextTimerId = enq9.nextTimerId := by
  decide

/-- C8 amended: on a size-triggering enqueue only the flush is invoked; the
debounce timer is neither rescheduled nor cancelled, so any timer pending
from an earlier enqueue stays pending with its old fire time and no new
handle is created (part 1).  Only on a non-triggering enqueue is the
debounce reschedule performed, and then no flush runs (part 2).  The
leftover timer later fires a redundant flush of the then-empty queue, which
issues no sink call (part 3). -/
theorem C8_trigger_skips_reschedule :
    (∀ (α : Type) (client : Bool) (now : Nat) (table : String) (data : α)
      (s : BatcherState α), MAX_QUEUE_SIZE ≤ s.eventQueue.length + 1 →
      (queueEvent true client now table data s).eventQueue = [] ∧
      (queueEvent true client now table data s).pendingTimers = s.pendingTimers ∧
      (queueEvent true client now table data s).flushTimeout = s.flushTimeout ∧
      (queueEvent true client now table data s).nextTimerId = s.nextTimerId) ∧
    (∀ (α : Type) (client : Bool) (now : Nat) (table : String) (data : α)
      (s : BatcherState α), s.eventQueue.length + 1 < MAX_QUEUE_SIZE →
      (queueEvent true client now table data s).sink = s.sink ∧
      (queueEvent true client now table data s).flushTimeout = some s.nextTimerId ∧
      (queueEvent true client now table data s).nextTimerId = s.nextTimerId + 1) ∧
    (∀ (α : Type) (enabled client : Bool) (id : Nat) (s : BatcherState α),
      s.eventQueue = [] → (fireFlushTimer enabled client id s).sink = s.sink) := by
  refine ⟨?_, ?_, ?_⟩
  · intro α client now table data s h
    rw [queueEvent_trigger client now table data s h]
    rw [flushEvents_of_nonempty (by simp)]
    exact ⟨rfl, rfl, rfl, rfl⟩
  · intro α client now table data s h
    rw [queueEvent_below client now table data s h]
    exact ⟨rfl, rfl, rfl⟩
  · intro α enabled client id s h
    unfold fireFlushTimer
    split
    · rw [flushEvents_of_empty (by simpa using h)]
    · rfl

/-- Witness for C8 amended: the 10th enqueue at t = 100 from the 9-event
state leaves the timer table untouched; a single enqueue from the initial
state creates handle 0; firing a timer on an empty queue sends nothing. -/
theorem C8_trigger_skips_reschedule_witness :
    ((queueEvent true true 100 "visit_logs" 9 enq9).pendingTimers =
      enq9.pendingTimers) ∧
    ((queueEvent true true 42 "visit_logs" (0 : Nat) initBatcher).flushTimeout =
      some 0) ∧
    ((fireFlushTimer true true 7 (initBatcher (α := Nat))).sink = []) := by
  refine ⟨(C8_trigger_skips_reschedule.1 Nat true 100 "visit_logs" 9 enq9
    (by decide)).2.1, ?_, ?_⟩
  · exact (C8_trigger_skips_reschedule.2.1 Nat true 42 "visit_logs" 0 initBatcher
      (by decide)).2.1
  · exact C8_trigger_skips_reschedule.2.2 Nat true true 7 initBatcher (by decide)

/-! ## Claim C2 -/

theorem flushCapture_snd {α : Type} (s : BatcherState α) :
    (flushCapture true s).2 = s.eventQueue := by
  unfold flushCapture
  by_cases h : s.eventQueue = []
  · simp [h]
  · have hl : (s.eventQueue.length == 0) = false := by
      simp [List.length_eq_zero, h]
    simp [hl]

theorem flushCapture_fst_queue {α : Type} (s : BatcherState α) :
    (flushCapture true s).1.eventQueue = [] := by
  unfold flushCapture
  by_cases h : s.eventQueue = []
  · simp [h]
  · have hl : (s.eventQueue.length == 0) = false := by
      simp [List.length_eq_zero, h]
    simp [hl]

theorem flushCapture_fst_sink {α : Type} (s : BatcherState α) :
    (flushCapture true s).1.sink = s.sink := by
  unfold flushCapture
  split <;> rfl

theorem foldl_enqueue_below {α : Type} (client : Bool) (es : List (Nat × String × α))
    (s : BatcherState α) (h : s.eventQueue.length + es.length < MAX_QUEUE_SIZE) :
    (es.foldl (fun st e => queueEvent true client e.1 e.2.1 e.2.2 st) s).eventQueue =
      s.eventQueue ++ es.map (fun e => { table := e.2.1, data := e.2.2 }) ∧
    (es.foldl (fun st e => queueEvent true client e.1 e.2.1 e.2.2 st) s).sink = s.sink := by
  induction es generalizing s with
  | nil => simp
  | cons e rest ih =>
    simp only [List.foldl_cons, List.map_cons]
    rw [queueEvent_below client e.1 e.2.1 e.2.2 s (by simp at h; omega)]
    have hrest := ih
      (scheduleFlush e.1 { s with eventQueue := s.eventQueue ++ [{ table := e.2.1, data := e.2.2 }] })
      (by simp [scheduleFlush] at h ⊢; omega)
    rcases hrest with ⟨hq, hs⟩
    constructor
    · rw [hq]
      simp [scheduleFlush]
    · rw [hs]
      rfl

/-- C2: `flushEvents` captures the queue and resets it in one step of the
cooperative event loop before any sink call — the swap in the source is the
synchronous prefix of the async function, with no suspension point between
copy and clear — so the captured batch equals exactly the queue at flush
start, the queue is empty immediately after the swap, and no sink call has
been made yet (part 1).  Any events enqueued while the flush's sink calls
are in flight (fewer than MAX_QUEUE_SIZE of them, so that no size trigger
intervenes) are not in that batch: they form exactly the new queue, issue no
sink call themselves, and a subsequent flush captures exactly them as the
next batch (part 2).  A flush whose captured batch is empty performs zero
sink calls and changes nothing (part 3). -/
theorem C2_swap_then_send :
    (∀ (α : Type) (s : BatcherState α),
      (flushCapture true s).2 = s.eventQueue ∧
      (flushCapture true s).1.eventQueue = [] ∧
      (flushCapture true s).1.sink = s.sink) ∧
    (∀ (α : Type) (client : Bool) (s : BatcherState α) (es : List (Nat × String × α)),
      es.length < MAX_QUEUE_SIZE →
      (es.foldl (fun st e => queueEvent true client e.1 e.2.1 e.2.2 st)
          (flushCapture true s).1).eventQueue =
        es.map (fun e => { table := e.2.1, data := e.2.2 }) ∧
      (es.foldl (fun st e => queueEvent true client e.1 e.2.1 e.2.2 st)
          (flushCapture true s).1).sink = s.sink ∧
      (flushCapture true (es.foldl (fun st e => queueEvent true client e.1 e.2.1 e.2.2 st)
          (flushCapture true s).1)).2 =
        es.map (fun e => { table := e.2.1, data := e.2.2 })) ∧
    (∀ (α : Type) (enabled client : Bool) (s : BatcherState α),
      s.eventQueue = [] → flushEvents enabled client s = s) := by
  refine ⟨?_, ?_, ?_⟩
  · intro α s
    exact ⟨flushCapture_snd s, flushCapture_fst_queue s, flushCapture_fst_sink s⟩
  · intro α client s es h
    have hbase : ((flushCapture true s).1.eventQueue.length + es.length < MAX_QUEUE_SIZE) := by
      rw [flushCapture_fst_queue]
      simpa using h
    have hf := foldl_enqueue_below client es (flushCapture true s).1 hbase
    rcases hf with ⟨hq, hs⟩
    rw [flushCapture_fst_queue] at hq
    simp only [List.nil_append] at hq
    refine ⟨hq, ?_, ?_⟩
    · rw [hs, flushCapture_fst_sink]
    · rw [flushCapture_snd, hq]
  · intro α enabled client s h
    exact flushEvents_of_empty h

/-- Witness for C2: flushing the 9-event state captures those 9 events and
empties the queue; two events enqueued while the sends are in flight form
exactly the next batch; flushing the initial (empty) state is the identity. -/
theorem C2_swap_then_send_witness :
    (flushCapture true enq9).2 = enq9.eventQueue ∧
    ([((3 : Nat), "visit_logs", (100 : Nat)), (4, "business_interactions", 200)].foldl
        (fun st e => queueEvent true true e.1 e.2.1 e.2.2 st)
        (flushCapture true enq9).1).eventQueue =
      [{ table := "visit_logs", data := 100 }, { table := "business_interactions", data := 200 }] ∧
    flushEvents true true (initBatcher (α := Nat)) = initBatcher := by
  refine ⟨(C2_swap_then_send.1 Nat enq9).1, ?_, ?_⟩
  · have h := (C2_swap_then_send.2.1 Nat true enq9
      [((3 : Nat), "visit_logs", (100 : Nat)), (4, "business_interactions", 200)]
      (by decide)).1
    simpa using h
  · exact C2_swap_then_send.2.2 Nat true true initBatcher (by decide)


/-! ## Claim C4 -/

/-- A batch of 3 interaction events and 2 visit events, interleaved in
enqueue order. -/
def exBatch5 : List (QueuedEvent Nat) :=
  [{ table := "business_interactions", data := 1 },
   { table := "visit_logs", data := 10 },
   { table := "business_interactions", data := 2 },
   { table := "business_interactions", data := 3 },
   { table := "visit_logs", data := 20 }]

/-- C4: a non-empty batch (of events in the two categories of the data
model) is partitioned into exactly one grouped sink write per non-empty
category — at least one write overall, exactly one write whose table is
business_interactions iff that category is non-empty, likewise for
visit_logs, and no write for any other table; each write carries exactly the
batch's events of its category, as a subsequence of the batch (original
enqueue order preserved).  The concrete 3-interaction/2-visit batch produces
exactly 2 sink calls with the order-preserved partitions. -/
theorem C4_grouped_writes_per_category :
    (∀ (α : Type) (batch : List (QueuedEvent α)),
      batch ≠ [] →
      (∀ ev ∈ batch, ev.table = "business_interactions" ∨ ev.table = "visit_logs") →
      1 ≤ (groupCalls true batch).length ∧
      ((groupCalls true batch).filter
          (fun c => c.table == "business_interactions")).length =
        (if (batch.filter (fun ev => ev.table == "business_interactions")).length = 0
         then 0 else 1) ∧
      ((groupCalls true batch).filter (fun c => c.table == "visit_logs")).length =
        (if (batch.filter (fun ev => ev.table == "visit_logs")).length = 0
         then 0 else 1) ∧
      (∀ c ∈ groupCalls true batch,
        c.table = "business_interactions" ∨ c.table = "visit_logs") ∧
      (∀ c ∈ groupCalls true batch,
        c.rows = (batch.filter (fun ev => ev.table == c.table)).map (fun ev => ev.data)) ∧
      (∀ c ∈ groupCalls true batch,
        c.rows.Sublist (batch.map (fun ev => ev.data)))) ∧
    groupCalls true exBatch5 =
      [{ table := "business_interactions", rows := [1, 2, 3] },
       { table := "visit_logs", rows := [10, 20] }] := by
  refine ⟨?_, by decide⟩
  intro α batch hne hall
  by_cases hb : batch.filter (fun ev => ev.table == "business_interactions") = []
  · by_cases hv : batch.filter (fun ev => ev.table == "visit_logs") = []
    · exfalso
      rcases List.exists_mem_of_ne_nil batch hne with ⟨ev, hev⟩
      rcases hall ev hev with ht | ht
      · have hmem : ev ∈ batch.filter (fun ev => ev.table == "business_interactions") :=
          List.mem_filter.mpr ⟨hev, by simp [ht]⟩
        rw [hb] at hmem
        exact absurd hmem (List.not_mem_nil ev)
      · have hmem : ev ∈ batch.filter (fun ev => ev.table == "visit_logs") :=
          List.mem_filter.mpr ⟨hev, by simp [ht]⟩
        rw [hv] at hmem
        exact absurd hmem (List.not_mem_nil ev)
    · have hG : groupCalls true batch =
          [{ table := "visit_logs",
             rows := (batch.filter (fun ev => ev.table == "visit_logs")).map
               (fun ev => ev.data) }] := by
        simp [groupCalls, hb, List.length_eq_zero, hv]
      refine ⟨by rw [hG]; simp, by rw [hG]; simp [hb],
        by rw [hG]; simp [List.length_eq_zero, hv], ?_, ?_, ?_⟩
      · intro c hc
        rw [hG] at hc
        simp only [List.mem_singleton] at hc
        subst hc
        right
        rfl
      · intro c hc
        rw [hG] at hc
        simp only [List.mem_singleton] at hc
        subst hc
        rfl
      · intro c hc
        rw [hG] at hc
        simp only [List.mem_singleton] at hc
        subst hc
        exact (List.filter_sublist batch).map (fun ev => ev.data)
  · by_cases hv : batch.filter (fun ev => ev.table == "visit_logs") = []
    · have hG : groupCalls true batch =
          [{ table := "business_interactions",
             rows := (batch.filter (fun ev => ev.table == "business_interactions")).map
               (fun ev => ev.data) }] := by
        simp [groupCalls, hv, List.length_eq_zero, hb]
      refine ⟨by rw [hG]; simp, by rw [hG]; simp [List.length_eq_zero, hb],
        by rw [hG]; simp [hv], ?_, ?_, ?_⟩
      · intro c hc
        rw [hG] at hc
        simp only [List.mem_singleton] at hc
        subst hc
        left
        rfl
      · intro c hc
        rw [hG] at hc
        simp only [List.mem_singleton] at hc
        subst hc
        rfl
      · intro c hc
        rw [hG] at hc
        simp only [List.mem_singleton] at hc
        subst hc
        exact (List.filter_sublist batch).map (fun ev => ev.data)
    · have hG : groupCalls true batch =
          [{ table := "business_interactions",
             rows := (batch.filter (fun ev => ev.table == "business_interactions")).map
               (fun ev => ev.data) },
           { table := "visit_logs",
             rows := (batch.filter (fun ev => ev.table == "visit_logs")).map
               (fun ev => ev.data) }] := by
        simp [groupCalls, List.length_eq_zero, hb, hv]
      refine ⟨by rw [hG]; simp, by rw [hG]; simp [List.length_eq_zero, hb],
        by rw [hG]; simp [List.length_eq_zero, hv], ?_, ?_, ?_⟩
      · intro c hc
        rw [hG] at hc
        simp only [List.mem_cons, List.not_mem_nil, or_false] at hc
        rcases hc with hc | hc <;> subst hc
        · left; rfl
        · right; rfl
      · intro c hc
        rw [hG] at hc
        simp only [List.mem_cons, List.not_mem_nil, or_false] at hc
        rcases hc with hc | hc <;> subst hc <;> rfl
      · intro c hc
        rw [hG] at hc
        simp only [List.mem_cons, List.not_mem_nil, or_false] at hc
        rcases hc with hc | hc <;> subst hc <;>
          exact (List.filter_sublist batch).map (fun ev => ev.data)

/-- Witness for C4: the concrete 5-event batch satisfies the hypotheses and
yields at least one write, exactly one of them for business_interactions. -/
theorem C4_grouped_writes_per_category_witness :
    1 ≤ (groupCalls true exBatch5).length ∧
    ((groupCalls true exBatch5).filter
        (fun c => c.table == "business_interactions")).length =
      (if (exBatch5.filter (fun ev => ev.table == "business_interactions")).length = 0
       then 0 else 1) := by
  have h := C4_grouped_writes_per_category.1 Nat exBatch5 (by decide) (by decide)
  exact ⟨h.1, h.2.1⟩


/-! ## Claim C5 -/

/-- C5: sendPing performs no sink call when the tab is hidden, regardless of
the activity timestamp (part 1); none when the activity gap exceeds
MIN_ACTIVITY_GAP, even if visible (part 2); none when the subsystem is
disabled (part 3).  When all three gates pass (and the sink client exists),
it upserts a presence record keyed by device_id with is_active = true and
last_ping = now (part 4). -/
theorem C5_ping_gating :
    (∀ (enabled client : Bool) (now lastActivity : Nat) (deviceId : String)
      (userName : Option String),
      sendPing enabled client false now lastActivity deviceId userName = none) ∧
    (∀ (enabled client tabVisible : Bool) (now lastActivity : Nat)
      (deviceId : String) (userName : Option String),
      MIN_ACTIVITY_GAP < now - lastActivity →
      sendPing enabled client tabVisible now lastActivity deviceId userName = none) ∧
    (∀ (client tabVisible : Bool) (now lastActivity : Nat) (deviceId : String)
      (userName : Option String),
      sendPing false client tabVisible now lastActivity deviceId userName = none) ∧
    (∀ (now lastActivity : Nat) (deviceId : String) (userName : Option String),
      now - lastActivity ≤ MIN_ACTIVITY_GAP →
      sendPing true true true now lastActivity deviceId userName =
        some { table := "live_users",
               record := { device_id := deviceId, user_name := userName,
                           is_active := true, last_ping := now },
               onConflict := "device_id" }) := by
  refine ⟨?_, ?_, ?_, ?_⟩
  · intro enabled client now lastActivity deviceId userName
    simp [sendPing]
  · intro enabled client tabVisible now lastActivity deviceId userName h
    have hd : decide (MIN_ACTIVITY_GAP < now - lastActivity) = true := decide_eq_true h
    simp [sendPing, hd]
  · intro client tabVisible now lastActivity deviceId userName
    simp [sendPing]
  · intro now lastActivity deviceId userName h
    have hd : decide (MIN_ACTIVITY_GAP < now - lastActivity) = false :=
      decide_eq_false (not_lt.mpr h)
    simp [sendPing, hd]

/-- Witness for C5: an eligible ping at now = 5000 is sent; at gap 20001 it
is skipped. -/
theorem C5_ping_gating_witness :
    sendPing true true true 5000 0 "dev" (some "u") =
      some { table := "live_users",
             record := { device_id := "dev", user_name := some "u",
                         is_active := true, last_ping := 5000 },
             onConflict := "device_id" } ∧
    sendPing true true true 20001 0 "dev" none = none := by
  exact ⟨C5_ping_gating.2.2.2 5000 0 "dev" (some "u") (by decide),
    C5_ping_gating.2.1 true true true 20001 0 "dev" none (by decide)⟩

/-! ## Claim C7 -/

/-- C7: with the global enable flag false, queueEvent is the identity on the
whole batcher state (no push, no sink call, no timer change), sendPing
performs no upsert, and startLiveTracking is the identity on the whole app
state (no ping, no interval, no unload listener); trackUserVisit still saves
the user name locally and changes nothing else; and a saved name is
retrievable. -/
theorem C7_disabled_noop_except_identity :
    (∀ (α : Type) (client : Bool) (now : Nat) (table : String) (data : α)
      (s : BatcherState α), queueEvent false client now table data s = s) ∧
    (∀ (client tabVisible : Bool) (now lastActivity : Nat) (deviceId : String)
      (userName : Option String),
      sendPing false client tabVisible now lastActivity deviceId userName = none) ∧
    (∀ (α : Type) (client tabVisible : Bool) (now lastActivity : Nat)
      (s : AppState α),
      startLiveTracking false client tabVisible now lastActivity s = s) ∧
    (∀ (client tabVisible : Bool) (now lastActivity : Nat) (pagePath : String)
      (referrer : Option String) (userAgent : String) (existingUser : Option UserRow)
      (userName : String) (s : VisitApp),
      trackUserVisit false client tabVisible now lastActivity pagePath referrer
        userAgent existingUser userName s =
        { s with storage := setUserName userName s.storage }) ∧
    (∀ (n : String) (st : Storage), getUserName (setUserName n st) = some n) := by
  refine ⟨?_, ?_, ?_, ?_, ?_⟩
  · intro α client now table data s
    rfl
  · intro client tabVisible now lastActivity deviceId userName
    simp [sendPing]
  · intro α client tabVisible now lastActivity s
    rfl
  · intro client tabVisible now lastActivity pagePath referrer userAgent existingUser
      userName s
    rfl
  · intro n st
    rfl


/-! ## Heartbeat lemmas -/

theorem getDeviceId_userName (st : Storage) :
    (getDeviceId st).2.userName = st.userName := by
  unfold getDeviceId
  cases hd : st.deviceId <;> simp

theorem pingTimersOk_cleared {l : LiveState} (h : pingTimersOk l) :
    (match l.pingInterval with
      | some id => l.pingTimers.filter (fun t => t.id != id)
      | none => l.pingTimers) = [] := by
  rcases h with ⟨-, hall⟩
  cases hft : l.pingInterval with
  | none =>
    simp only
    cases hpt : l.pingTimers with
    | nil => rfl
    | cons t rest =>
      have := hall t (by rw [hpt]; exact List.mem_cons_self t rest)
      rw [hft] at this
      cases this
  | some id =>
    simp only
    rw [List.filter_eq_nil_iff]
    intro t ht
    have := hall t ht
    rw [hft] at this
    injection this with h2
    subst h2
    simp

theorem startLiveTracking_enabled_eq {α : Type} (client tabVisible : Bool)
    (now lastActivity : Nat) (s : AppState α) (h : pingTimersOk s.live) :
    startLiveTracking true client tabVisible now lastActivity s =
      { s with
        storage := (getDeviceId s.storage).2,
        live := { pingTimers := [{ id := s.live.nextId,
                                   deviceId := (getDeviceId s.storage).1,
                                   userName := getUserName (getDeviceId s.storage).2 }],
                  pingInterval := some s.live.nextId,
                  nextId := s.live.nextId + 1,
                  unloadListeners := s.live.unloadListeners ++
                    [((getDeviceId s.storage).1, getUserName (getDeviceId s.storage).2)],
                  pingSink := s.live.pingSink ++
                    (match sendPing true client tabVisible now lastActivity
                        (getDeviceId s.storage).1 (getUserName (getDeviceId s.storage).2) with
                      | some c => [c]
                      | none => []),
                  beacons := s.live.beacons } } := by
  have hcl := pingTimersOk_cleared h
  cases hpi : s.live.pingInterval with
  | none =>
    rw [hpi] at hcl
    simp only at hcl
    cases hsp : sendPing true client tabVisible now lastActivity
        (getDeviceId s.storage).1 (getUserName (getDeviceId s.storage).2) with
    | none => simp [startLiveTracking, hsp, hpi, hcl]
    | some c => simp [startLiveTracking, hsp, hpi, hcl]
  | some id =>
    rw [hpi] at hcl
    simp only at hcl
    cases hsp : sendPing true client tabVisible now lastActivity
        (getDeviceId s.storage).1 (getUserName (getDeviceId s.storage).2) with
    | none => simp [startLiveTracking, hsp, hpi, hcl]
    | some c => simp [startLiveTracking, hsp, hpi, hcl]

theorem startLiveTracking_pingTimersOk {α : Type} (enabled client tabVisible : Bool)
    (now lastActivity : Nat) (s : AppState α) (h : pingTimersOk s.live) :
    pingTimersOk (startLiveTracking enabled client tabVisible now lastActivity s).live := by
  cases enabled with
  | false => exact h
  | true =>
    rw [startLiveTracking_enabled_eq client tabVisible now lastActivity s h]
    constructor
    · simp
    · intro t ht
      simp only [List.mem_singleton] at ht
      subst ht
      rfl

theorem pingTick_pingTimersOk (enabled client tabVisible : Bool)
    (now lastActivity : Nat) (id : Nat) {l : LiveState} (h : pingTimersOk l) :
    pingTimersOk (pingTick enabled client tabVisible now lastActivity id l) := by
  unfold pingTick
  split
  · exact h
  · split
    · exact h
    · exact h

theorem runUnloadListener_pingTimersOk (enabled client : Bool) (now : Nat)
    {l : LiveState} (cap : String × Option String) (h : pingTimersOk l) :
    pingTimersOk (runUnloadListener enabled client now l cap) := by
  rcases h with ⟨h1, h2⟩
  unfold runUnloadListener
  cases hpi : l.pingInterval with
  | none =>
    simp only
    split <;> refine ⟨h1, ?_⟩ <;> intro t ht <;>
      { have := h2 t ht
        rw [hpi] at this
        exact Option.noConfusion this }
  | some id =>
    simp only
    split <;> refine ⟨le_trans (List.length_filter_le _ _) h1, ?_⟩ <;> intro t ht <;>
      { have := h2 t (List.mem_of_mem_filter ht)
        rw [hpi] at this
        exact this }

theorem foldlUnload_pingTimersOk (enabled client : Bool) (now : Nat)
    (caps : List (String × Option String)) :
    ∀ l : LiveState, pingTimersOk l →
      pingTimersOk (caps.foldl (runUnloadListener enabled client now) l) := by
  induction caps with
  | nil => intro l h; exact h
  | cons cap rest ih =>
    intro l h
    exact ih (runUnloadListener enabled client now l cap)
      (runUnloadListener_pingTimersOk enabled client now cap h)

theorem liveStep_pingInv {α : Type} (enabled : Bool) (s : AppState α) (op : LiveOp)
    (h : pingInv s) : pingInv (liveStep enabled s op) := by
  cases op with
  | start client tabVisible now lastActivity =>
    exact startLiveTracking_pingTimersOk enabled client tabVisible now lastActivity s h
  | tick client tabVisible now lastActivity id =>
    exact pingTick_pingTimersOk enabled client tabVisible now lastActivity id h
  | setName n => exact h
  | unload client now =>
    exact foldlUnload_pingTimersOk enabled client now s.live.unloadListeners s.live h

theorem liveRun_pingInv {α : Type} (enabled : Bool) (ops : List LiveOp)
    {s : AppState α} (h : pingInv s) : pingInv (liveRun enabled ops s) := by
  induction ops generalizing s with
  | nil => exact h
  | cons op rest ih => exact ih (liveStep_pingInv enabled s op h)


/-! ## Claim C6 -/

/-- C6: at most one recurring ping schedule is live after any sequence of
heartbeat operations from the initial state (part 1), and two successive
enabled startLiveTracking calls from any state satisfying the timer
discipline leave exactly one live recurring schedule — the second call
cancels the first call's interval before creating its own (part 2). -/
theorem C6_start_idempotent_schedule :
    (∀ (α : Type) (enabled : Bool) (st : Storage) (ops : List LiveOp),
      pingInv (liveRun enabled ops (initApp (α := α) st))) ∧
    (∀ (α : Type) (s : AppState α) (c1 v1 : Bool) (n1 a1 : Nat)
      (c2 v2 : Bool) (n2 a2 : Nat), pingInv s →
      (startLiveTracking true c2 v2 n2 a2
        (startLiveTracking true c1 v1 n1 a1 s)).live.pingTimers.length = 1) := by
  constructor
  · intro α enabled st ops
    refine liveRun_pingInv enabled ops ?_
    constructor
    · simp [initApp, initLive]
    · intro t ht
      simp [initApp, initLive] at ht
  · intro α s c1 v1 n1 a1 c2 v2 n2 a2 h
    have h1 : pingTimersOk (startLiveTracking true c1 v1 n1 a1 s).live :=
      startLiveTracking_pingTimersOk true c1 v1 n1 a1 s h
    rw [startLiveTracking_enabled_eq c2 v2 n2 a2 _ h1]
    simp

/-- Witness for C6: two successive enabled calls from the initial app state
leave exactly one live interval. -/
theorem C6_start_idempotent_schedule_witness :
    pingInv (initApp (α := Nat) { deviceId := some "dev", userName := some "u", freshCtr := 0 }) ∧
    (startLiveTracking true true true 1 1
      (startLiveTracking true true true 0 0
        (initApp (α := Nat)
          { deviceId := some "dev", userName := some "u", freshCtr := 0 }))).live.pingTimers.length = 1 := by
  refine ⟨by decide, ?_⟩
  exact C6_start_idempotent_schedule.2 Nat
    (initApp { deviceId := some "dev", userName := some "u", freshCtr := 0 })
    true true 0 0 true true 1 1 (by decide)

/-! ## Claim C9 -/

/-- C9: the recurring schedule created by startLiveTracking pings with the
device identifier and user name read at the call's start.  After a
subsequent setUserName n (so that the stored name is now n, first conjunct),
a tick of that schedule still upserts with the user name from before the
start call (second conjunct: the appended upsert carries
s.storage.userName, the name stored when startLiveTracking ran, not n). -/
theorem C9_schedule_captures_start_identity :
    ∀ (α : Type) (s : AppState α) (n : String) (client tabVisible : Bool)
      (now lastActivity now2 la2 : Nat),
      pingInv s → now2 - la2 ≤ MIN_ACTIVITY_GAP →
      getUserName (liveStep true
          (startLiveTracking true client tabVisible now lastActivity s)
          (.setName n)).storage = some n ∧
      (liveStep true
          (liveStep true (startLiveTracking true client tabVisible now lastActivity s)
            (.setName n))
          (.tick true true now2 la2 s.live.nextId)).live.pingSink =
        (liveStep true (startLiveTracking true client tabVisible now lastActivity s)
            (.setName n)).live.pingSink ++
          [{ table := "live_users",
             record := { device_id := (getDeviceId s.storage).1,
                         user_name := s.storage.userName,
                         is_active := true, last_ping := now2 },
             onConflict := "device_id" }] := by
  intro α s n client tabVisible now lastActivity now2 la2 hinv hgap
  have heq := startLiveTracking_enabled_eq client tabVisible now lastActivity s hinv
  have hd : decide (MIN_ACTIVITY_GAP < now2 - la2) = false :=
    decide_eq_false (not_lt.mpr hgap)
  constructor
  · rfl
  · rw [heq]
    simp [liveStep, pingTick, sendPing, hd, getUserName, getDeviceId_userName]

/-- Witness for C9: concretely, with the stored name alice at start and a
rename to bob afterwards, the tick's upsert still says alice. -/
theorem C9_schedule_captures_start_identity_witness :
    getUserName (liveStep true
        (startLiveTracking true true true 0 0
          (initApp (α := Nat) { deviceId := some "dev", userName := some "alice", freshCtr := 0 }))
        (.setName "bob")).storage = some "bob" ∧
    (liveStep true
        (liveStep true
          (startLiveTracking true true true 0 0
            (initApp (α := Nat) { deviceId := some "dev", userName := some "alice", freshCtr := 0 }))
          (.setName "bob"))
        (.tick true true 100 100
          (initApp (α := Nat) { deviceId := some "dev", userName := some "alice", freshCtr := 0 }).live.nextId)).live.pingSink =
      (liveStep true
          (startLiveTracking true true true 0 0
            (initApp (α := Nat) { deviceId := some "dev", userName := some "alice", freshCtr := 0 }))
          (.setName "bob")).live.pingSink ++
        [{ table := "live_users",
           record := { device_id := "dev", user_name := some "alice",
                       is_active := true, last_ping := 100 },
           onConflict := "device_id" }] := by
  exact C9_schedule_captures_start_identity Nat
    (initApp { deviceId := some "dev", userName := some "alice", freshCtr := 0 })
    "bob" true true 0 0 100 100 (by decide) (by decide)

/-! ## Claim C10 -/

theorem startLiveTracking_listeners {α : Type} (client tabVisible : Bool)
    (now lastActivity : Nat) (s : AppState α) :
    (startLiveTracking true client tabVisible now lastActivity s).live.unloadListeners =
      s.live.unloadListeners ++
        [((getDeviceId s.storage).1, getUserName (getDeviceId s.storage).2)] := by
  cases hsp : sendPing true client tabVisible now lastActivity
      (getDeviceId s.storage).1 (getUserName (getDeviceId s.storage).2) with
  | none => simp [startLiveTracking, hsp]
  | some c => simp [startLiveTracking, hsp]

theorem startLiveTracking_beacons {α : Type} (client tabVisible : Bool)
    (now lastActivity : Nat) (s : AppState α) :
    (startLiveTracking true client tabVisible now lastActivity s).live.beacons =
      s.live.beacons := by
  cases hsp : sendPing true client tabVisible now lastActivity
      (getDeviceId s.storage).1 (getUserName (getDeviceId s.storage).2) with
  | none => simp [startLiveTracking, hsp]
  | some c => simp [startLiveTracking, hsp]

theorem runUnloadListener_beacons (now : Nat) (l : LiveState)
    (cap : String × Option String) :
    (runUnloadListener true true now l cap).beacons =
      l.beacons ++ [{ device_id := cap.1, user_name := cap.2,
                      is_active := false, last_ping := now }] := rfl

theorem foldlUnload_beacons (now : Nat) (caps : List (String × Option String)) :
    ∀ l : LiveState,
      (caps.foldl (runUnloadListener true true now) l).beacons =
        l.beacons ++ caps.map (fun cap =>
          { device_id := cap.1, user_name := cap.2,
            is_active := false, last_ping := now }) := by
  induction caps with
  | nil => intro l; simp
  | cons cap rest ih =>
    intro l
    simp only [List.foldl_cons, List.map_cons]
    rw [ih (runUnloadListener true true now l cap), runUnloadListener_beacons]
    simp

/-- C10: each startLiveTracking call registers one more beforeunload
listener and none is ever removed — after k enabled calls the listener count
has grown by exactly k (part 1); on page unload, every registered listener
runs and (with the subsystem enabled and the client present) each attempts
its own final is_active = false presence write, so the unload emits one
beacon per registered listener (part 2); hence after k calls from the
initial state an unload attempts exactly k final writes, not one (part 3). -/
theorem C10_unload_writes_accumulate :
    (∀ (α : Type) (client tabVisible : Bool) (now lastActivity : Nat)
      (s : AppState α) (k : Nat),
      ((fun st => startLiveTracking true client tabVisible now lastActivity st)^[k]
          s).live.unloadListeners.length =
        s.live.unloadListeners.length + k) ∧
    (∀ (α : Type) (now : Nat) (s : AppState α),
      (fireUnload true true now s).live.beacons =
        s.live.beacons ++ s.live.unloadListeners.map (fun cap =>
          { device_id := cap.1, user_name := cap.2,
            is_active := false, last_ping := now })) ∧
    (∀ (α : Type) (client tabVisible : Bool) (now lastActivity unloadTime : Nat)
      (st : Storage) (k : Nat),
      (fireUnload true true unloadTime
        ((fun s => startLiveTracking true client tabVisible now lastActivity s)^[k]
          (initApp (α := α) st))).live.beacons.length = k) := by
  have hpart1 : ∀ (α : Type) (client tabVisible : Bool) (now lastActivity : Nat)
      (s : AppState α) (k : Nat),
      ((fun st => startLiveTracking true client tabVisible now lastActivity st)^[k]
          s).live.unloadListeners.length =
        s.live.unloadListeners.length + k := by
    intro α client tabVisible now lastActivity s k
    induction k with
    | zero => rfl
    | succ m ih =>
      rw [Function.iterate_succ_apply']
      rw [startLiveTracking_listeners]
      simp only [List.length_append, List.length_singleton, ih]
      omega
  have hpart2 : ∀ (α : Type) (now : Nat) (s : AppState α),
      (fireUnload true true now s).live.beacons =
        s.live.beacons ++ s.live.unloadListeners.map (fun cap =>
          { device_id := cap.1, user_name := cap.2,
            is_active := false, last_ping := now }) := by
    intro α now s
    unfold fireUnload
    exact foldlUnload_beacons now s.live.unloadListeners s.live
  refine ⟨hpart1, hpart2, ?_⟩
  intro α client tabVisible now lastActivity unloadTime st k
  rw [hpart2]
  have hl := hpart1 α client tabVisible now lastActivity (initApp st) k
  have hb : ∀ m : Nat,
      ((fun s => startLiveTracking true client tabVisible now lastActivity s)^[m]
        (initApp (α := α) st)).live.beacons = [] := by
    intro m
    induction m with
    | zero => rfl
    | succ j ih =>
      rw [Function.iterate_succ_apply', startLiveTracking_beacons]
      exact ih
  rw [hb k]
  simp only [List.nil_append, List.length_map]
  simpa [initApp, initLive] using hl

end TrackingService
